import Mathlib

namespace Mart

/-! Shallow embedding of the Settlement & Messaging Core of the marketplace
client (src/App.tsx, src/types.ts). Rendering, scroll and loading-flag
concerns are not modelled; the state mutations and service calls performed by
the components are. The services/supabase and services/eyo modules are not in
the source tree, so each of their calls is either driven by an outcome oracle
(success flags chosen by the environment) or, where a claim depends on their
behaviour, modelled from the spec with an explicit doc comment. -/

/-- Product row (src/types.ts). Fields never read by the settlement or
messaging core (description, imageUrl, imagePath, city, deliveryMethod,
sellerName, sellerAvatar, createdAt) are omitted. Prices and quantities are
exact integers here; the source keeps them in JS numbers, but the core only
copies prices verbatim and subtracts 1 from integer quantities. -/
structure Product where
  id : String
  title : String
  price : Int
  pixKey : String
  pixKeyType : String
  quantity : Int
  sellerId : String
deriving DecidableEq

/-- Order status union type (src/types.ts line 54). -/
inductive OrderStatus
  | paid
  | delivered
deriving DecidableEq

/-- Order row (src/types.ts). The optional presentation fields buyerName and
shippingAddress and the DB-generated createdAt are omitted; the settlement
saga never sets them (src/App.tsx lines 699-706). -/
structure Order where
  id : String
  buyerId : String
  sellerId : String
  productId : String
  productTitle : String
  price : Int
  status : OrderStatus
deriving DecidableEq

/-- A payout transfer issued through eyoService.createWithdraw
(src/App.tsx line 714). -/
structure Withdraw where
  amount : Int
  pixKey : String
  pixKeyType : String
deriving DecidableEq

/-- Result of eyoService.getPaymentStatus: the success flag and the optional
statusRes.data?.status string (src/App.tsx line 694). -/
structure StatusRes where
  success : Bool
  status : Option String
deriving DecidableEq

/-- Environment oracle for one confirmPayment run: the gateway status
response, whether orders.create succeeds, and the id the record store would
assign to the new order row. -/
structure ConfirmOracle where
  statusRes : StatusRes
  orderOk : Bool
  newOrderId : String
deriving DecidableEq

/-- External mutations performed by the settlement saga, in the order the
code issues them. -/
inductive Effect
  | orderCreate (o : Order)
  | stockWrite (pid : String) (q : Int)
  | withdraw (amount : Int) (key : String) (keyType : String)
deriving DecidableEq

/-- Durable state held by the record store and the payment gateway, as far as
the settlement saga touches it: stock per product id, order rows, payouts. -/
structure DbState where
  stock : String → Int
  orders : List Order
  payouts : List Withdraw

/-- Modelled from the spec (section 6, Record Store point write): the
supabaseService.db.products.updateStock call sets the product's stored
quantity to the value supplied by the caller. Its implementation
(services/supabase) is not under src/; the visible call site passes an
absolute new quantity computed client-side (src/App.tsx line 711). -/
def updateStock (st : DbState) (pid : String) (q : Int) : DbState :=
  { st with stock := fun x => if x = pid then q else st.stock x }

/-- Modelled from the spec (section 6, Payment Gateway createWithdraw): issues
a payout transfer for the given amount to the given key
(src/App.tsx line 714). -/
def createWithdraw (st : DbState) (amount : Int) (key keyType : String) : DbState :=
  { st with payouts := st.payouts ++ [⟨amount, key, keyType⟩] }

/-- The success test of confirmPayment (src/App.tsx line 697):
statusRes.success and statusRes.data?.status equal to COMPLETED or ACTIVE. -/
def isSuccessStatus (sr : StatusRes) : Bool :=
  sr.success && (sr.status == some "COMPLETED" || sr.status == some "ACTIVE")

/-- Confirm result as surfaced to the user: the success alert, the
"Pagamento ainda não confirmado. Status: ..." alert carrying the observed
status, or the catch-block error alert (src/App.tsx lines 716-722). -/
inductive ConfirmResult
  | success
  | notYetPaid (status : Option String)
  | error (msg : String)
deriving DecidableEq

/-- confirmPayment (src/App.tsx lines 690-726). Polls the gateway status; on
COMPLETED or ACTIVE it creates the order row (aborting via throw when
orders.create reports an error), then writes the stock to the snapshot
quantity minus 1, then issues the payout of the product price to the
product's pix key. Returns the user-visible result, the updated durable
state, and the trace of external mutations in issue order. -/
def confirmPayment (o : ConfirmOracle) (product : Product) (buyerId : String)
    (st : DbState) : ConfirmResult × DbState × List Effect :=
  if isSuccessStatus o.statusRes then
    let row : Order :=
      { id := o.newOrderId, buyerId := buyerId, sellerId := product.sellerId,
        productId := product.id, productTitle := product.title,
        price := product.price, status := .paid }
    if o.orderOk then
      let st1 : DbState := { st with orders := st.orders ++ [row] }
      let st2 := updateStock st1 product.id (product.quantity - 1)
      let st3 := createWithdraw st2 product.price product.pixKey product.pixKeyType
      (.success, st3,
        [.orderCreate row, .stockWrite product.id (product.quantity - 1),
         .withdraw product.price product.pixKey product.pixKeyType])
    else
      (.error "Failed to create order", st, [])
  else
    (.notYetPaid o.statusRes.status, st, [])

/-- Concrete product snapshot used in counterexample runs: the buyer's loaded
copy of product p1 with snapshot quantity 1. -/
def p1 : Product :=
  { id := "p1", title := "t", price := 50, pixKey := "k",
    pixKeyType := "RANDOM", quantity := 1, sellerId := "s" }

/-- Concrete durable state in which product p1 currently has stock 0 (for
instance after a concurrent buyer's settlement already sold the last unit). -/
def st0 : DbState := { stock := fun _ => 0, orders := [], payouts := [] }

/-- The settlement run against st0 with a stale snapshot of quantity 1 and a
COMPLETED gateway status. -/
def c1run : ConfirmResult × DbState × List Effect :=
  confirmPayment ⟨⟨true, some "COMPLETED"⟩, true, "o1"⟩ p1 "b" st0

/-- C1: the stored quantity of p1 is 0, yet confirmPayment succeeds, creates
an order, performs the stock write and issues the payout: the stock decrement
is not a guarded conditional update and no SoldOut failure exists. The code
writes the stale snapshot quantity minus 1 unconditionally. -/
theorem C1_stock_decrement_unguarded :
    st0.stock "p1" = 0 ∧
    c1run.1 = ConfirmResult.success ∧
    c1run.2.1.orders = [⟨"o1", "b", "s", "p1", "t", 50, .paid⟩] ∧
    c1run.2.2 = [.orderCreate ⟨"o1", "b", "s", "p1", "t", 50, .paid⟩,
                 .stockWrite "p1" 0, .withdraw 50 "k" "RANDOM"] :=
  ⟨rfl, rfl, rfl, rfl⟩

/-- C2: when the gateway response is outside the success set, confirmPayment
returns the not-yet-confirmed alert carrying the observed status, leaves the
durable state untouched and performs no external mutation: no order, no stock
change, no payout. -/
theorem C2_outside_success_set_no_effects (o : ConfirmOracle) (p : Product)
    (b : String) (st : DbState) (h : isSuccessStatus o.statusRes = false) :
    confirmPayment o p b st = (.notYetPaid o.statusRes.status, st, []) := by
  simp [confirmPayment, h]

/-- C2 witness: a PENDING status produces the not-yet-paid result and leaves
st0 unchanged. -/
theorem C2_outside_success_set_no_effects_witness :
    confirmPayment ⟨⟨true, some "PENDING"⟩, true, "o1"⟩ p1 "b" st0 =
      (.notYetPaid (some "PENDING"), st0, []) :=
  C2_outside_success_set_no_effects _ _ _ _ (by decide)

/-- C3: with a COMPLETED or ACTIVE gateway status, sufficient stock and a
successful order insert, confirmPayment persists an order with status paid
carrying the product's price and title at that instant, and the trace of
external effects is exactly order creation, then stock decrement, then payout
of the full sale price to the product's registered pix key, in that order. -/
theorem C3_success_fixed_order (o : ConfirmOracle) (p : Product) (b : String)
    (st : DbState)
    (hrs : o.statusRes.success = true)
    (hst : o.statusRes.status = some "COMPLETED" ∨ o.statusRes.status = some "ACTIVE")
    (hq : 1 ≤ p.quantity)
    (hok : o.orderOk = true) :
    ∃ row : Order,
      row.status = OrderStatus.paid ∧ row.price = p.price ∧
      row.productTitle = p.title ∧
      confirmPayment o p b st =
        (.success,
         { stock := fun x => if x = p.id then p.quantity - 1 else st.stock x,
           orders := st.orders ++ [row],
           payouts := st.payouts ++ [⟨p.price, p.pixKey, p.pixKeyType⟩] },
         [.orderCreate row, .stockWrite p.id (p.quantity - 1),
          .withdraw p.price p.pixKey p.pixKeyType]) := by
  have hsucc : isSuccessStatus o.statusRes = true := by
    cases hst <;> simp [isSuccessStatus, hrs, *]
  refine ⟨⟨o.newOrderId, b, p.sellerId, p.id, p.title, p.price, .paid⟩,
    rfl, rfl, rfl, ?_⟩
  simp [confirmPayment, hsucc, hok, updateStock, createWithdraw]

/-- C3 witness: a concrete ACTIVE-status run against st0 produces the paid
order, the stock write and the payout in the fixed order. -/
theorem C3_success_fixed_order_witness :
    ∃ row : Order,
      row.status = OrderStatus.paid ∧ row.price = p1.price ∧
      row.productTitle = p1.title ∧
      confirmPayment ⟨⟨true, some "ACTIVE"⟩, true, "o2"⟩ p1 "b" st0 =
        (.success,
         { stock := fun x => if x = p1.id then p1.quantity - 1 else st0.stock x,
           orders := st0.orders ++ [row],
           payouts := st0.payouts ++ [⟨p1.price, p1.pixKey, p1.pixKeyType⟩] },
         [.orderCreate row, .stockWrite p1.id (p1.quantity - 1),
          .withdraw p1.price p1.pixKey p1.pixKeyType]) :=
  C3_success_fixed_order _ _ _ _ rfl (Or.inr rfl) (by decide) rfl

/-- C4: when the order insert fails, confirmPayment throws before the stock
update and the payout: the result is the catch-block error, the durable state
is exactly the input state and no external mutation is recorded, so a retry
starts from unchanged state. -/
theorem C4_order_create_failure_aborts (o : ConfirmOracle) (p : Product)
    (b : String) (st : DbState)
    (hrs : o.statusRes.success = true)
    (hst : o.statusRes.status = some "COMPLETED" ∨ o.statusRes.status = some "ACTIVE")
    (hfail : o.orderOk = false) :
    confirmPayment o p b st = (.error "Failed to create order", st, []) := by
  have hsucc : isSuccessStatus o.statusRes = true := by
    cases hst <;> simp [isSuccessStatus, hrs, *]
  simp [confirmPayment, hsucc, hfail]

/-- C4 witness: a concrete run with a failing order insert returns the error
and leaves st0 unchanged with an empty effect trace. -/
theorem C4_order_create_failure_aborts_witness :
    confirmPayment ⟨⟨true, some "COMPLETED"⟩, false, "o1"⟩ p1 "b" st0 =
      (.error "Failed to create order", st0, []) :=
  C4_order_create_failure_aborts _ _ _ _ rfl (Or.inl rfl) rfl

/-- Direct message row in client shape (src/types.ts lines 66-72). -/
structure DirectMessage where
  id : String
  senderId : String
  receiverId : String
  content : String
  createdAt : String
deriving DecidableEq

/-- Direct message row in wire shape, as carried by a realtime insert payload
(payload.new in src/App.tsx lines 240-255). -/
structure DirectInsertRow where
  id : String
  sender_id : String
  receiver_id : String
  content : String
  created_at : String
deriving DecidableEq

/-- DirectChatModal insert-subscription handler (src/App.tsx lines 239-258):
the client-side relevance filter keeps only rows whose sender and receiver
are exactly the open pair, and rows whose sender is the local user are not
appended because the optimistic local copy is authoritative. -/
def directInsertHandler (userId buyerId : String) (row : DirectInsertRow)
    (prev : List DirectMessage) : List DirectMessage :=
  if (row.sender_id = userId ∧ row.receiver_id = buyerId) ∨
     (row.sender_id = buyerId ∧ row.receiver_id = userId) then
    if row.sender_id ≠ userId then
      prev ++ [⟨row.id, row.sender_id, row.receiver_id, row.content, row.created_at⟩]
    else prev
  else prev

/-- Executable model of JS String.prototype.trim: drop leading and trailing
whitespace from the character list. Only its emptiness is ever tested by the
source (the !newMessage.trim() guards). -/
def jsTrim (s : String) : String :=
  ⟨((s.data.dropWhile Char.isWhitespace).reverse.dropWhile
      Char.isWhitespace).reverse⟩

/-- DirectChatModal.handleSend (src/App.tsx lines 268-294): with a non-blank
message, the optimistic copy (random id, current user as sender, open contact
as receiver) is appended before the network write; the catch block only logs,
so the local log is the same whether the write succeeds or fails. Returns the
new log and whether the remote write was acknowledged. -/
def handleSendDirect (userId buyerId newMessage optimisticId createdAt : String)
    (writeOk : Bool) (prev : List DirectMessage) : List DirectMessage × Bool :=
  if jsTrim newMessage = "" then (prev, false)
  else (prev ++ [⟨optimisticId, userId, buyerId, newMessage, createdAt⟩], writeOk)

/-- Helper: the insert handler never appends an event whose sender is the
local user (the own-echo suppression branch of src/App.tsx line 248). -/
theorem directInsertHandler_own_echo (userId buyerId : String)
    (row : DirectInsertRow) (h : row.sender_id = userId)
    (l : List DirectMessage) :
    directInsertHandler userId buyerId row l = l := by
  simp [directInsertHandler, h]

/-- C5: a locally sent direct message appears exactly once: handleSend
appends the optimistic copy once, and the later remote insert event for it
(whose sender is the local user) is suppressed by the own-sender filter, so
the log counts the message exactly once. -/
theorem C5_local_send_appears_once (userId buyerId msg optId ts : String)
    (prev : List DirectMessage) (row : DirectInsertRow)
    (hmsg : jsTrim msg ≠ "")
    (hecho : row.sender_id = userId)
    (hfresh : (⟨optId, userId, buyerId, msg, ts⟩ : DirectMessage) ∉ prev) :
    (directInsertHandler userId buyerId row
        (handleSendDirect userId buyerId msg optId ts true prev).1).count
      (⟨optId, userId, buyerId, msg, ts⟩ : DirectMessage) = 1 := by
  rw [directInsertHandler_own_echo _ _ _ hecho]
  simp [handleSendDirect, hmsg, List.count_append,
    List.count_eq_zero.mpr hfresh]

/-- C5 witness: user A sends "hi" to B over an empty log, then the echo event
for it arrives; the message is in the log exactly once. -/
theorem C5_local_send_appears_once_witness :
    (directInsertHandler "A" "B" ⟨"srv1", "A", "B", "hi", "t2"⟩
        (handleSendDirect "A" "B" "hi" "tmp1" "t1" true []).1).count
      (⟨"tmp1", "A", "B", "hi", "t1"⟩ : DirectMessage) = 1 :=
  C5_local_send_appears_once "A" "B" "hi" "tmp1" "t1" []
    ⟨"srv1", "A", "B", "hi", "t2"⟩ (by decide) rfl (by decide)

/-- C10: when the remote write of a direct send fails, the optimistic copy is
not rolled back: the log still ends with the appended message, the write is
unacknowledged, and the log differs from the pre-send log. -/
theorem C10_send_failure_keeps_optimistic (userId buyerId msg optId ts : String)
    (prev : List DirectMessage) (hmsg : jsTrim msg ≠ "") :
    (handleSendDirect userId buyerId msg optId ts false prev).1 =
        prev ++ [⟨optId, userId, buyerId, msg, ts⟩] ∧
    (handleSendDirect userId buyerId msg optId ts false prev).2 = false ∧
    (handleSendDirect userId buyerId msg optId ts false prev).1 ≠ prev := by
  have h1 : (handleSendDirect userId buyerId msg optId ts false prev).1 =
      prev ++ [⟨optId, userId, buyerId, msg, ts⟩] := by
    simp [handleSendDirect, hmsg]
  refine ⟨h1, by simp [handleSendDirect, hmsg], ?_⟩
  rw [h1]
  intro hcontra
  have hlen := congrArg List.length hcontra
  simp at hlen

/-- C10 witness: a failed send of "hi" from A to B over an empty log leaves
the optimistic message in the log. -/
theorem C10_send_failure_keeps_optimistic_witness :
    (handleSendDirect "A" "B" "hi" "tmp1" "t1" false []).1 =
        [] ++ [⟨"tmp1", "A", "B", "hi", "t1"⟩] ∧
    (handleSendDirect "A" "B" "hi" "tmp1" "t1" false []).2 = false ∧
    (handleSendDirect "A" "B" "hi" "tmp1" "t1" false []).1 ≠ [] :=
  C10_send_failure_keeps_optimistic "A" "B" "hi" "tmp1" "t1" [] (by decide)

/-- Membership of a direct message in the unordered pair of the open
conversation (spec section 4.2, Direct Conversation key). -/
def betweenPair (a b : String) (m : DirectMessage) : Bool :=
  (m.senderId == a && m.receiverId == b) || (m.senderId == b && m.receiverId == a)

/-- Modelled from the spec (section 4.2 open): directChat.getMessages(user.id,
buyer.id) returns the snapshot of all direct messages for the unordered pair;
its implementation (services/supabase) is not under src/. -/
def getMessagesDirect (userId buyerId : String) (table : List DirectMessage) :
    List DirectMessage :=
  table.filter (betweenPair userId buyerId)

/-- The operations that mutate an open Direct Conversation's local log:
remote insert events and local sends (src/App.tsx lines 239-294). -/
inductive DirectOp
  | remoteInsert (row : DirectInsertRow)
  | send (msg optId ts : String) (writeOk : Bool)

/-- One step of the Direct Conversation log. -/
def directStep (userId buyerId : String) (log : List DirectMessage)
    (op : DirectOp) : List DirectMessage :=
  match op with
  | .remoteInsert row => directInsertHandler userId buyerId row log
  | .send msg optId ts writeOk =>
      (handleSendDirect userId buyerId msg optId ts writeOk log).1

/-- Helper: each Direct Conversation step preserves the pair invariant. -/
theorem directStep_preserves_pair (userId buyerId : String)
    (log : List DirectMessage) (op : DirectOp)
    (h : ∀ m ∈ log, betweenPair userId buyerId m = true) :
    ∀ m ∈ directStep userId buyerId log op,
      betweenPair userId buyerId m = true := by
  cases op with
  | remoteInsert row =>
      intro m hm
      simp only [directStep, directInsertHandler] at hm
      by_cases hrel : (row.sender_id = userId ∧ row.receiver_id = buyerId) ∨
          (row.sender_id = buyerId ∧ row.receiver_id = userId)
      · rw [if_pos hrel] at hm
        by_cases hs : row.sender_id ≠ userId
        · rw [if_pos hs] at hm
          rcases List.mem_append.mp hm with hold | hnew
          · exact h m hold
          · have hmEq : m = ⟨row.id, row.sender_id, row.receiver_id,
                row.content, row.created_at⟩ := by simpa using hnew
            subst hmEq
            rcases hrel with ⟨h1, h2⟩ | ⟨h1, h2⟩ <;>
              simp [betweenPair, h1, h2]
        · rw [if_neg hs] at hm
          exact h m hm
      · rw [if_neg hrel] at hm
        exact h m hm
  | send msg optId ts writeOk =>
      intro m hm
      simp only [directStep, handleSendDirect] at hm
      by_cases hb : jsTrim msg = ""
      · rw [if_pos hb] at hm
        exact h m hm
      · rw [if_neg hb] at hm
        rcases List.mem_append.mp hm with hold | hnew
        · exact h m hold
        · have hmEq : m = ⟨optId, userId, buyerId, msg, ts⟩ := by simpa using hnew
          subst hmEq
          simp [betweenPair]

/-- C8: starting from the snapshot for the pair (userId, buyerId), every
message ever present in the Direct Conversation log after any sequence of
remote insert events and local sends has its sender and receiver equal to
the unordered pair: irrelevant insert events are never appended and
optimistic sends only add messages of the pair. -/
theorem C8_pair_invariant (userId buyerId : String)
    (table : List DirectMessage) (ops : List DirectOp) :
    ∀ m ∈ ops.foldl (directStep userId buyerId)
        (getMessagesDirect userId buyerId table),
      betweenPair userId buyerId m = true := by
  have hbase : ∀ m ∈ getMessagesDirect userId buyerId table,
      betweenPair userId buyerId m = true := by
    intro m hm
    exact List.of_mem_filter hm
  revert hbase
  generalize getMessagesDirect userId buyerId table = log
  induction ops generalizing log with
  | nil => intro h; exact h
  | cons op rest ih =>
      intro h
      exact ih _ (directStep_preserves_pair userId buyerId log op h)

/-- C8 witness: after a snapshot over a table holding a foreign message, a
relevant insert from B, an irrelevant insert from C, and a local send, the
inserted message from B sits in the log and is between A and B. -/
theorem C8_pair_invariant_witness :
    betweenPair "A" "B" (⟨"x3", "B", "A", "hey", "t2"⟩ : DirectMessage) = true :=
  C8_pair_invariant "A" "B"
    [⟨"x1", "C", "D", "other", "t0"⟩, ⟨"x2", "B", "A", "yo", "t1"⟩]
    [DirectOp.remoteInsert ⟨"x3", "B", "A", "hey", "t2"⟩,
     DirectOp.remoteInsert ⟨"x4", "C", "A", "spam", "t3"⟩,
     DirectOp.send "hi" "tmp1" "t4" true]
    (⟨"x3", "B", "A", "hey", "t2"⟩ : DirectMessage) (by decide)

/-- Order-scoped chat message row in client shape (src/types.ts lines 58-64). -/
structure ChatMessage where
  id : String
  orderId : String
  senderId : String
  content : String
  createdAt : String
deriving DecidableEq

/-- Order-scoped chat message row in wire shape (payload.new in
src/App.tsx lines 113-120). -/
structure ChatRow where
  id : String
  order_id : String
  sender_id : String
  content : String
  created_at : String
deriving DecidableEq

/-- Realtime events delivered on the order-chat channel
(src/App.tsx lines 112-125): INSERT carries the new row, DELETE carries
payload.old, of which the handler reads only the id. -/
inductive OrderChatEvent
  | insert (row : ChatRow)
  | delete (oldId : String)

/-- ChatModal realtime handler (src/App.tsx lines 112-125): INSERT appends
the row; DELETE filters out the single message whose id equals the deleted
row's id. -/
def orderChatHandler (log : List ChatMessage) (ev : OrderChatEvent) :
    List ChatMessage :=
  match ev with
  | .insert row =>
      log ++ [⟨row.id, row.order_id, row.sender_id, row.content, row.created_at⟩]
  | .delete oldId => log.filter (fun m => m.id != oldId)

/-- Concrete order-chat messages of order O1 for the C6 counterexample. -/
def c6m1 : ChatMessage := ⟨"m1", "O1", "s", "hello", "t1"⟩

/-- Second concrete order-chat message of order O1. -/
def c6m2 : ChatMessage := ⟨"m2", "O1", "s", "world", "t2"⟩

/-- C6 counterexample: handling one remote delete event (for row m1 of order
O1) removes only the message with that id; the other message of the same
order survives, so a delete event is not a bulk order-scoped purge. -/
theorem C6_not_bulk_purge :
    orderChatHandler [c6m1, c6m2] (.delete "m1") = [c6m2] ∧
    c6m2.orderId = "O1" ∧ c6m1.orderId = "O1" := by
  refine ⟨?_, rfl, rfl⟩
  decide

/-- Helper: folding per-id delete events over a log whose ids are all listed
empties the log. -/
theorem foldl_delete_all (ids : List String) :
    ∀ log : List ChatMessage, (∀ m ∈ log, m.id ∈ ids) →
      ids.foldl (fun l i => orderChatHandler l (.delete i)) log = [] := by
  induction ids with
  | nil =>
      intro log h
      cases log with
      | nil => rfl
      | cons m ms => exact absurd (h m (by simp)) (by simp)
  | cons i rest ih =>
      intro log h
      simp only [List.foldl_cons]
      apply ih
      intro m hm
      simp only [orderChatHandler] at hm
      have hmf := List.mem_filter.mp hm
      have hmem : m ∈ log := hmf.1
      have hne := hmf.2
      have hin := h m hmem
      simp only [bne_iff_ne, ne_eq] at hne
      simp only [List.mem_cons] at hin
      rcases hin with h1 | h2
      · exact absurd h1 hne
      · exact h2

/-- C6 (amended): a remote delete event removes exactly the messages whose id
equals the deleted row's id (a per-message delete); since the delivery
transition deletes every row of the order server-side and the feed delivers
one delete event per removed row, processing one delete event per message id
currently in the log leaves the log empty. -/
theorem C6_per_message_delete (log : List ChatMessage) (oldId : String) :
    orderChatHandler log (.delete oldId) = log.filter (fun m => m.id != oldId) ∧
    (log.map (fun m => m.id)).foldl
        (fun l i => orderChatHandler l (.delete i)) log = [] := by
  refine ⟨rfl, ?_⟩
  apply foldl_delete_all
  intro m hm
  exact List.mem_map.mpr ⟨m, hm, rfl⟩

/-- Record-store state touched by the order lifecycle: order rows and
order-scoped chat messages. -/
structure MsgStore where
  orders : List Order
  messages : List ChatMessage

/-- Modelled from the spec (section 4.3 transition effect): the
supabaseService.db.orders.markDelivered call persists status = delivered for
the order and the delivery transition deletes every chat message of the
order; its implementation (services/supabase) is not under src/. -/
def markDelivered (oid : String) (st : MsgStore) : MsgStore :=
  { orders := st.orders.map
      (fun o => if o.id = oid then { o with status := .delivered } else o),
    messages := st.messages.filter (fun m => m.orderId != oid) }

/-- ChatModal.handleMarkDelivered plus its render gating
(src/App.tsx lines 147-179): the action is only reachable when the current
user is the order's seller (the button is rendered under isSeller) and the
window.confirm dialog was accepted; otherwise nothing happens. -/
def handleMarkDelivered (userId : String) (ord : Order) (confirmed : Bool)
    (st : MsgStore) : MsgStore :=
  if userId = ord.sellerId ∧ confirmed = true then markDelivered ord.id st
  else st

/-- The operations of the repository that write order rows: the settlement
saga's create (always status paid, src/App.tsx line 705) and the delivery
action. -/
inductive StoreOp
  | createOrder (row : Order)
  | deliver (userId : String) (ord : Order) (confirmed : Bool)

/-- One order-store step. -/
def storeStep (st : MsgStore) : StoreOp → MsgStore
  | .createOrder row =>
      { st with orders := st.orders ++ [{ row with status := .paid }] }
  | .deliver u ord c => handleMarkDelivered u ord c st

/-- Helper: no operation turns a delivered order back to paid, as long as
created rows carry fresh ids. -/
theorem storeStep_preserves_delivered (st : MsgStore) (op : StoreOp)
    (oid : String)
    (hop : ∀ row, op = StoreOp.createOrder row → row.id ≠ oid)
    (h : ∀ o ∈ st.orders, o.id = oid → o.status = .delivered) :
    ∀ o ∈ (storeStep st op).orders, o.id = oid → o.status = .delivered := by
  cases op with
  | createOrder row =>
      intro o ho hid
      simp only [storeStep] at ho
      rcases List.mem_append.mp ho with hold | hnew
      · exact h o hold hid
      · have hoeq : o = { row with status := .paid } := by simpa using hnew
        subst hoeq
        exact absurd hid (hop row rfl)
  | deliver u dOrd c =>
      intro o ho hid
      simp only [storeStep, handleMarkDelivered] at ho
      by_cases hc : u = dOrd.sellerId ∧ c = true
      · rw [if_pos hc] at ho
        simp only [markDelivered] at ho
        rcases List.mem_map.mp ho with ⟨o0, ho0, heq⟩
        by_cases he : o0.id = dOrd.id
        · rw [if_pos he] at heq
          rw [← heq]
        · rw [if_neg he] at heq
          subst heq
          exact h o0 ho0 hid
      · rw [if_neg hc] at ho
        exact h o ho hid

/-- Helper: a sequence of store operations whose created rows avoid an order
id keeps every delivered row of that id delivered. -/
theorem storeSteps_preserve_delivered (ops : List StoreOp) :
    ∀ (st : MsgStore) (oid : String),
      (∀ row, StoreOp.createOrder row ∈ ops → row.id ≠ oid) →
      (∀ o ∈ st.orders, o.id = oid → o.status = .delivered) →
      ∀ o ∈ (ops.foldl storeStep st).orders,
        o.id = oid → o.status = .delivered := by
  induction ops with
  | nil => intro st oid _ h; exact h
  | cons op rest ih =>
      intro st oid hfresh h
      simp only [List.foldl_cons]
      apply ih
      · intro row hr
        exact hfresh row (List.mem_cons_of_mem _ hr)
      · refine storeStep_preserves_delivered st op oid ?_ h
        intro row hop
        refine hfresh row ?_
        rw [← hop]
        exact List.mem_cons_self _ _

/-- C7: the order lifecycle admits only the paid-to-delivered transition. A
delivery attempt by anyone but the order's seller, or without the explicit
confirmation, changes nothing; the seller's confirmed delivery persists
status delivered for the order and purges the order's conversation; and once
every row of an order id is delivered it stays delivered across any further
operations (creates carry fresh ids), so the transition happens at most once
and is irreversible. -/
theorem C7_paid_to_delivered_only (userId : String) (ord : Order)
    (confirmed : Bool) (st : MsgStore) (ops : List StoreOp) (oid : String)
    (hfresh : ∀ row, StoreOp.createOrder row ∈ ops → row.id ≠ oid) :
    (¬(userId = ord.sellerId ∧ confirmed = true) →
        handleMarkDelivered userId ord confirmed st = st) ∧
    (userId = ord.sellerId → confirmed = true →
        (∀ o ∈ (handleMarkDelivered userId ord confirmed st).orders,
            o.id = ord.id → o.status = .delivered) ∧
        (∀ m ∈ (handleMarkDelivered userId ord confirmed st).messages,
            m.orderId ≠ ord.id)) ∧
    ((∀ o ∈ st.orders, o.id = oid → o.status = .delivered) →
        ∀ o ∈ (ops.foldl storeStep st).orders,
          o.id = oid → o.status = .delivered) := by
  refine ⟨?_, ?_, ?_⟩
  · intro hno
    simp only [handleMarkDelivered]
    rw [if_neg hno]
  · intro hu hc
    constructor
    · intro o ho hid
      simp only [handleMarkDelivered] at ho
      rw [if_pos ⟨hu, hc⟩] at ho
      simp only [markDelivered] at ho
      rcases List.mem_map.mp ho with ⟨o0, _, heq⟩
      by_cases he : o0.id = ord.id
      · rw [if_pos he] at heq
        rw [← heq]
      · rw [if_neg he] at heq
        subst heq
        exact absurd hid he
    · intro m hm
      simp only [handleMarkDelivered] at hm
      rw [if_pos ⟨hu, hc⟩] at hm
      simp only [markDelivered] at hm
      have := (List.mem_filter.mp hm).2
      simpa using this
  · intro hinit
    exact storeSteps_preserve_delivered ops st oid hfresh hinit

/-- Concrete paid order used in the C7 witness. -/
def c7ord : Order := ⟨"O1", "b", "s", "pX", "t", 50, .paid⟩

/-- Concrete store holding c7ord and one of its chat messages. -/
def c7store : MsgStore := ⟨[c7ord], [⟨"m1", "O1", "s", "hello", "t1"⟩]⟩

/-- C7 witness: for the concrete order O1, a non-seller delivery is a no-op,
the seller's confirmed delivery marks O1 delivered and purges its messages,
and delivered rows stay delivered across a further delivery operation. -/
theorem C7_paid_to_delivered_only_witness :
    (¬("b" = c7ord.sellerId ∧ true = true) →
        handleMarkDelivered "b" c7ord true c7store = c7store) ∧
    ("b" = c7ord.sellerId → true = true →
        (∀ o ∈ (handleMarkDelivered "b" c7ord true c7store).orders,
            o.id = c7ord.id → o.status = .delivered) ∧
        (∀ m ∈ (handleMarkDelivered "b" c7ord true c7store).messages,
            m.orderId ≠ c7ord.id)) ∧
    ((∀ o ∈ c7store.orders, o.id = "O1" → o.status = .delivered) →
        ∀ o ∈ ([StoreOp.deliver "s" c7ord true].foldl storeStep c7store).orders,
          o.id = "O1" → o.status = .delivered) :=
  C7_paid_to_delivered_only "b" c7ord true c7store
    [StoreOp.deliver "s" c7ord true] "O1" (by simp)

/-- Modelled from the spec (section 6 subscribe-with-filter primitive and
section 4.2 close): the realtime client used by the chat components keeps a
registry of live channels; supabase.channel allocates fresh ids in increasing
order, subscribe registers the channel, removeChannel discards every copy of
it, and feed events are delivered only to registered channels. The client
library is not under src/. -/
structure SubsState where
  nextId : Nat
  channels : List Nat
deriving DecidableEq

/-- Channel allocation plus subscribe, as performed by the mount effect of
ChatModal (src/App.tsx lines 110-126) and DirectChatModal
(src/App.tsx lines 233-259). -/
def subscribeChannel (st : SubsState) : Nat × SubsState :=
  (st.nextId, ⟨st.nextId + 1, st.channels ++ [st.nextId]⟩)

/-- supabase.removeChannel, called by the effect cleanup of both chat
components (src/App.tsx lines 128 and 261). -/
def removeChannel (st : SubsState) (ch : Nat) : SubsState :=
  { st with channels := st.channels.filter (fun c => c != ch) }

/-- A feed event can be delivered to a channel only while the channel is
registered. -/
def delivers (st : SubsState) (ch : Nat) : Prop := ch ∈ st.channels

/-- The subscription operations the chat components perform: mounting a chat
view subscribes, the effect cleanup removes its channel. -/
inductive SubOp
  | openView
  | closeView (ch : Nat)

/-- One subscription-registry step. -/
def subStep (st : SubsState) : SubOp → SubsState
  | .openView => (subscribeChannel st).2
  | .closeView ch => removeChannel st ch

/-- Registry well-formedness: every live channel id was allocated before the
next fresh id. -/
def wfSubs (st : SubsState) : Prop := ∀ c ∈ st.channels, c < st.nextId

/-- One full open/close cycle of a chat view: subscribe on mount, remove the
same channel on cleanup. -/
def cycleStep (st : SubsState) : SubsState :=
  removeChannel (subscribeChannel st).2 (subscribeChannel st).1

/-- Helper: a closed channel with an already-allocated id stays closed under
any further subscription operation. -/
theorem subStep_keeps_out (st : SubsState) (ch : Nat) (op : SubOp)
    (h1 : ch < st.nextId) (h2 : ch ∉ st.channels) :
    ch < (subStep st op).nextId ∧ ch ∉ (subStep st op).channels := by
  cases op with
  | openView =>
      refine ⟨Nat.lt_succ_of_lt h1, ?_⟩
      intro hmem
      simp only [subStep, subscribeChannel, List.mem_append,
        List.mem_singleton] at hmem
      rcases hmem with hmem | hmem
      · exact h2 hmem
      · exact absurd hmem (Nat.ne_of_lt h1)
  | closeView ch2 =>
      refine ⟨h1, ?_⟩
      intro hmem
      exact h2 (List.mem_of_mem_filter hmem)

/-- Helper: a closed channel with an already-allocated id stays closed under
any sequence of subscription operations. -/
theorem subSteps_keep_out (ops : List SubOp) :
    ∀ (st : SubsState) (ch : Nat), ch < st.nextId → ch ∉ st.channels →
      ch ∉ (ops.foldl subStep st).channels := by
  induction ops with
  | nil => intro st ch _ h2; exact h2
  | cons op rest ih =>
      intro st ch h1 h2
      simp only [List.foldl_cons]
      obtain ⟨g1, g2⟩ := subStep_keeps_out st ch op h1 h2
      exact ih _ _ g1 g2

/-- Helper: one open/close cycle of a well-formed registry restores the
channel list and preserves well-formedness. -/
theorem cycleStep_channels (st : SubsState) (h : wfSubs st) :
    (cycleStep st).channels = st.channels ∧ wfSubs (cycleStep st) := by
  have hch : (cycleStep st).channels = st.channels := by
    simp only [cycleStep, subscribeChannel, removeChannel]
    rw [List.filter_append]
    simp only [List.filter_cons, List.filter_nil, bne_self_eq_false,
      Bool.false_eq_true, if_false, List.append_nil]
    exact List.filter_eq_self.mpr
      (fun c hc => by simpa using Nat.ne_of_lt (h c hc))
  refine ⟨hch, ?_⟩
  intro c hc
  rw [hch] at hc
  exact Nat.lt_succ_of_lt (h c hc)

/-- Helper: any number of open/close cycles leaves a well-formed registry's
channel list unchanged. -/
theorem cycleStep_iterate (n : Nat) :
    ∀ st : SubsState, wfSubs st → (cycleStep^[n] st).channels = st.channels := by
  induction n with
  | zero => intro st _; rfl
  | succ k ih =>
      intro st h
      rw [Function.iterate_succ_apply]
      rw [ih (cycleStep st) (cycleStep_channels st h).2,
        (cycleStep_channels st h).1]

/-- C9: the effect cleanup releases the subscription idempotently (removing
the channel twice equals removing it once), no event is deliverable to a
removed channel, the channel stays undeliverable across any later open/close
operations, and repeated open/close cycles leave the registry exactly as it
was, accumulating no listeners. -/
theorem C9_close_releases_subscription (st : SubsState) (ch : Nat)
    (ops : List SubOp) (n : Nat) :
    removeChannel (removeChannel st ch) ch = removeChannel st ch ∧
    ¬ delivers (removeChannel st ch) ch ∧
    (ch < st.nextId → ¬ delivers (ops.foldl subStep (removeChannel st ch)) ch) ∧
    (wfSubs st → (cycleStep^[n] st).channels = st.channels) := by
  have hout : ch ∉ (removeChannel st ch).channels := by
    intro hmem
    have := (List.mem_filter.mp hmem).2
    simp at this
  refine ⟨?_, hout, ?_, fun hwf => cycleStep_iterate n st hwf⟩
  · simp only [removeChannel]
    congr 1
    exact List.filter_eq_self.mpr (fun a ha => (List.mem_filter.mp ha).2)
  · intro h1
    exact subSteps_keep_out ops (removeChannel st ch) ch h1 hout

/-- C9 witness: with one live channel 0, closing it, then opening and closing
another view, channel 0 receives nothing; and two full open/close cycles
leave the registry's channel list unchanged. -/
theorem C9_close_releases_subscription_witness :
    ¬ delivers ([SubOp.openView, SubOp.closeView 1].foldl subStep
        (removeChannel ⟨1, [0]⟩ 0)) 0 ∧
    (cycleStep^[2] (⟨1, [0]⟩ : SubsState)).channels = [0] :=
  ⟨(C9_close_releases_subscription ⟨1, [0]⟩ 0
      [SubOp.openView, SubOp.closeView 1] 2).2.2.1 (by decide),
   (C9_close_releases_subscription ⟨1, [0]⟩ 0
      [SubOp.openView, SubOp.closeView 1] 2).2.2.2 (by unfold wfSubs; decide)⟩

end Mart
